import Mathlib

/-!
Verification of the iam-role-cloner repository against its specification.

The definitions below are a shallow embedding of the Go source:
* the pattern engine (`internal/aws/client.go`: `ReplacePatternInJSON`,
  `GenerateNewRoleName`, built on Go's `strings.ReplaceAll`),
* the AWS gateway wrappers (`internal/aws/client.go`),
* the clone workflow (`cmd/clone.go`: `parseRoleSelection`,
  `cloneSingleRole`, `performCloning`),
* the version command (`cmd/version.go`).

Strings are modelled as Lean `String` (a list of characters); Go operates
on UTF-8 bytes, which agrees with the character-level model on the ASCII
inputs relevant here.  Effectful AWS calls are modelled by passing the
service outcomes in explicitly (`AwsWorld`) and recording the calls made
in a trace (`AwsCall`).
-/

/-- Character-level occurrence check: does `pat` occur as a contiguous
substring of `s`?  Mirrors Go `strings.Contains` (via `strings.Index`). -/
def occursIn (pat : List Char) : List Char → Bool
  | [] => pat.isEmpty
  | c :: rest => pat.isPrefixOf (c :: rest) || occursIn pat rest

/-- Go `strings.Contains s sub`. -/
def goContains (s sub : String) : Bool :=
  occursIn sub.data s.data

/-- Fuel-indexed core of Go `strings.Replace` with `n < 0` and non-empty
`old`: repeatedly find the leftmost occurrence of `old`, emit `new`, and
continue after the occurrence (non-overlapping, left to right).  The fuel
only needs to be at least `s.length`; each step consumes at least one
character of `s`. -/
def replaceFuel : Nat → List Char → List Char → List Char → List Char
  | 0, s, _, _ => s
  | _, [], _, _ => []
  | fuel + 1, c :: rest, old, new =>
    if old.isPrefixOf (c :: rest) then
      new ++ replaceFuel fuel ((c :: rest).drop old.length) old new
    else
      c :: replaceFuel fuel rest old new

/-- Go `strings.ReplaceAll s old new`.  When `old` is empty, Go inserts
`new` before every character and at the end of the string; otherwise it
replaces every non-overlapping occurrence, scanning left to right. -/
def goReplaceAll (s old new : List Char) : List Char :=
  if old.isEmpty then
    new ++ s.foldr (fun c acc => c :: (new ++ acc)) []
  else
    replaceFuel s.length s old new

/-- `ReplacePatternInJSON` from internal/aws/client.go: literal substring
replacement over the whole JSON text (`strings.ReplaceAll`). -/
def ReplacePatternInJSON (jsonStr sourcePattern destPattern : String) : String :=
  ⟨goReplaceAll jsonStr.data sourcePattern.data destPattern.data⟩

/-- `GenerateNewRoleName` from internal/aws/client.go: literal substring
replacement over the role name (`strings.ReplaceAll`). -/
def GenerateNewRoleName (originalName sourcePattern destPattern : String) : String :=
  ⟨goReplaceAll originalName.data sourcePattern.data destPattern.data⟩

/-- Go `strings.TrimSuffix s suffix`: drop one copy of `suffix` from the
end of `s` when present, otherwise return `s` unchanged. -/
def trimSuffix (s suffix : String) : String :=
  if suffix.data.isSuffixOf s.data then
    ⟨s.data.take (s.data.length - suffix.data.length)⟩
  else s

/-- The Environment tag value computed at cmd/clone.go lines 443-444 and
525-526: `strings.TrimSuffix(strings.TrimSuffix(strings.TrimSuffix(
destPattern, "_"), "-"), ".")`. -/
def environmentTagValue (destPattern : String) : String :=
  trimSuffix (trimSuffix (trimSuffix destPattern "_") "-") "."

/-- Go `strconv.Atoi` restricted to the decisions the selection parser
needs: an optional sign followed by at least one decimal digit parses;
anything else fails.  (Go additionally fails on 64-bit overflow; such
values are rejected by the range check as well, so the acceptance
behaviour of the parser is unaffected.) -/
def digitsToNat (ds : List Char) : Option Nat :=
  if ds = [] then none
  else if ds.all (fun c => c.isDigit) then
    some (ds.foldl (fun a c => a * 10 + (c.toNat - 48)) 0)
  else none

/-- Go `strconv.Atoi`. -/
def goAtoi (s : String) : Option Int :=
  match s.data with
  | [] => none
  | '+' :: ds => (digitsToNat ds).map (fun n => (n : Int))
  | '-' :: ds => (digitsToNat ds).map (fun n => -(n : Int))
  | ds => (digitsToNat ds).map (fun n => (n : Int))

/-- Helper: is an `Except` value a success? -/
def exceptIsOk : Except ε α → Bool
  | .ok _ => true
  | .error _ => false

/-- Helper: is an `Except` value an error? -/
def exceptIsError : Except ε α → Bool
  | .ok _ => false
  | .error _ => true

/-- Prefix filter of `ListRoles` (internal/aws/client.go lines 66-71): a
role name is kept when the requested name start `pfx` is empty or the
name starts with it. -/
def listRolesFilter (pfx : String) (names : List String) : List String :=
  names.filter (fun n => pfx == "" || pfx.isPrefixOf n)

/-- Go `strings.TrimSpace`: drop leading and trailing whitespace. -/
def goTrimSpace (s : String) : String :=
  ⟨((s.data.dropWhile Char.isWhitespace).reverse.dropWhile Char.isWhitespace).reverse⟩

/-- Go `strings.ToLower` (character-wise lowering). -/
def goToLower (s : String) : String :=
  ⟨s.data.map Char.toLower⟩

/-- Go `strings.Split` at a single-character separator, as called by
`parseRoleSelection` with `","`: the list of (possibly empty) chunks
between separators. -/
def splitOnChar (sep : Char) : List Char → List (List Char)
  | [] => [[]]
  | c :: rest =>
    match splitOnChar sep rest with
    | [] => [[c]]
    | h :: t => if c = sep then [] :: h :: t else (c :: h) :: t

/-- Go `strings.Split s ","`. -/
def goSplitComma (s : String) : List String :=
  (splitOnChar ',' s.data).map (fun l => ⟨l⟩)

/-- Pattern prompting (cmd/clone.go lines 196-206): the raw answer is only
whitespace-trimmed, so an empty answer is accepted as an empty pattern. -/
def promptedPattern (raw : String) : String := goTrimSpace raw

/-- Recursive core of `parseRoleSelection` (cmd/clone.go lines 304-327):
trim each comma-separated part, skip empty parts, `strconv.Atoi` each
remaining part, range-check it against the discovered list (1-based), and
collect the selected roles in order; the first failure aborts the whole
selection. -/
def parseParts (allRoles : List String) : List String → Except String (List String)
  | [] => .ok []
  | p :: rest =>
    let t := goTrimSpace p
    if t = "" then parseParts allRoles rest
    else
      match goAtoi t with
      | none => .error ("invalid number: " ++ t)
      | some idx =>
        if idx < 1 ∨ idx > (allRoles.length : Int) then
          .error ("number out of range: " ++ toString idx)
        else
          match parseParts allRoles rest with
          | .error e => .error e
          | .ok rs => .ok (allRoles.getD (idx - 1).toNat "" :: rs)

/-- `parseRoleSelection` from cmd/clone.go. -/
def parseRoleSelection (selection : String) (allRoles : List String) :
    Except String (List String) :=
  parseParts allRoles (goSplitComma selection)

/-- The selection step of `discoverAndSelectRoles` (cmd/clone.go lines
257-271): the input line is trimmed; `all` (compared case-insensitively)
selects every discovered role, anything else goes through
`parseRoleSelection`. -/
def selectRoles (rawSelection : String) (allRoles : List String) :
    Except String (List String) :=
  let selection := goTrimSpace rawSelection
  if goToLower selection = "all" then .ok allRoles
  else parseRoleSelection selection allRoles

/-- A comma-separated token that the parser must reject: nonempty after
trimming, and either non-numeric or out of the range `[1, length]`. -/
def badToken (allRoles : List String) (part : String) : Bool :=
  (goTrimSpace part != "") &&
    match goAtoi (goTrimSpace part) with
    | none => true
    | some idx => decide (idx < 1) || decide (idx > (allRoles.length : Int))

/-- Tag processing on the real clone path (cmd/clone.go lines 519-531):
the tag keyed `Environment` gets the cleaned destination pattern as its
value; every other tag value goes through literal pattern replacement.
Go map iteration is modelled by an association list. -/
def processTags (tags : List (String × String)) (sourcePattern destPattern : String) :
    List (String × String) :=
  tags.map fun kv =>
    if kv.1 = "Environment" then (kv.1, environmentTagValue destPattern)
    else (kv.1, ReplacePatternInJSON kv.2 sourcePattern destPattern)

/-- Tag preview logged on the dry-run path (cmd/clone.go lines 439-455):
for each tag the displayed new value, computed by the same two rules as
the real path. -/
def dryRunTagPreview (tags : List (String × String)) (sourcePattern destPattern : String) :
    List (String × String) :=
  tags.map fun kv =>
    if kv.1 = "Environment" then (kv.1, environmentTagValue destPattern)
    else (kv.1, ReplacePatternInJSON kv.2 sourcePattern destPattern)

/-- The `CloneConfig` struct of cmd/clone.go. -/
structure CloneConfig where
  sourceProfile : String
  destProfile : String
  sourcePattern : String
  destPattern : String
  roles : List String
  verbose : Bool
  dryRun : Bool
  logFile : String

/-- The `RoleInfo` struct of internal/aws/client.go (a RoleSnapshot). -/
structure RoleInfo where
  roleName : String
  description : String
  trustPolicy : String
  managedPolicies : List String
  inlinePolicies : List (String × String)
  tags : List (String × String)

/-- One AWS API call issued during cloning, as recorded in the trace.
`getRoleInfo` and `roleExists` are read-only; the other four mutate the
destination account. -/
inductive AwsCall where
  | getRoleInfo (role : String)
  | roleExists (role : String)
  | createRole (role : String)
  | attachPolicy (role arn : String)
  | putRolePolicy (role policyName : String)
  | tagRole (role : String) (tags : List (String × String))
deriving DecidableEq

/-- Which calls mutate the destination account. -/
def AwsCall.isMutating : AwsCall → Bool
  | .createRole _ => true
  | .attachPolicy _ _ => true
  | .putRolePolicy _ _ => true
  | .tagRole _ _ => true
  | _ => false

/-- Outcomes of the underlying AWS service for each possible call: the
environment `cloneSingleRole`/`performCloning` run against.  Client
construction outcomes (`awsclient.NewClient`) are per profile. -/
structure AwsWorld where
  newClientOk : String → Bool
  getRoleInfo : String → Except String RoleInfo
  roleExists : String → Bool
  createRole : String → String → Except String Unit
  attachManagedPolicy : String → String → Except String Unit
  createInlinePolicy : String → String → Except String Unit
  tagRole : String → Except String Unit

/-- Result of cloning one role: the per-role verdict, the AWS calls made,
and the warnings logged for non-fatal sub-step failures. -/
structure SingleRoleOutcome where
  result : Except String Unit
  calls : List AwsCall
  warnings : List String

/-- `cloneSingleRole` from cmd/clone.go (lines 397-545): fetch the role
snapshot; in dry-run mode stop after logging; otherwise fail the role if
the destination name exists, create the role with the pattern-replaced
trust policy, then attach managed policies, create renamed inline
policies and copy processed tags, logging (not failing) on each sub-step
error. -/
def cloneSingleRole (w : AwsWorld) (sourceRole destRole : String) (cfg : CloneConfig) :
    SingleRoleOutcome :=
  match w.getRoleInfo sourceRole with
  | .error e =>
    ⟨.error ("failed to get role info: " ++ e), [.getRoleInfo sourceRole], []⟩
  | .ok roleInfo =>
    if cfg.dryRun then
      ⟨.ok (), [.getRoleInfo sourceRole], []⟩
    else if w.roleExists destRole then
      ⟨.error ("destination role already exists: " ++ destRole),
       [.getRoleInfo sourceRole, .roleExists destRole], []⟩
    else
      let processedTrustPolicy :=
        ReplacePatternInJSON roleInfo.trustPolicy cfg.sourcePattern cfg.destPattern
      match w.createRole destRole processedTrustPolicy with
      | .error e =>
        ⟨.error ("failed to create role: " ++ e),
         [.getRoleInfo sourceRole, .roleExists destRole, .createRole destRole], []⟩
      | .ok _ =>
        let attachCalls := roleInfo.managedPolicies.map
          (fun arn => AwsCall.attachPolicy destRole arn)
        let attachWarnings := roleInfo.managedPolicies.filterMap (fun arn =>
          match w.attachManagedPolicy destRole arn with
          | .error e => some ("Failed to attach managed policy " ++ arn ++ ": " ++ e)
          | .ok _ => none)
        let putCalls := roleInfo.inlinePolicies.map (fun p =>
          AwsCall.putRolePolicy destRole
            (GenerateNewRoleName p.1 cfg.sourcePattern cfg.destPattern))
        let putWarnings := roleInfo.inlinePolicies.filterMap (fun p =>
          match w.createInlinePolicy destRole
              (GenerateNewRoleName p.1 cfg.sourcePattern cfg.destPattern) with
          | .error e => some ("Failed to create inline policy "
              ++ GenerateNewRoleName p.1 cfg.sourcePattern cfg.destPattern ++ ": " ++ e)
          | .ok _ => none)
        let processedTags := processTags roleInfo.tags cfg.sourcePattern cfg.destPattern
        let tagCalls :=
          if roleInfo.tags.isEmpty then [] else [AwsCall.tagRole destRole processedTags]
        let tagWarnings :=
          if roleInfo.tags.isEmpty then []
          else
            match w.tagRole destRole with
            | .error e => ["Failed to copy tags: " ++ e]
            | .ok _ => []
        ⟨.ok (),
         [.getRoleInfo sourceRole, .roleExists destRole, .createRole destRole]
           ++ attachCalls ++ putCalls ++ tagCalls,
         attachWarnings ++ putWarnings ++ tagWarnings⟩

/-- The per-role loop of `performCloning` (cmd/clone.go lines 374-385):
clone each selected role in turn, counting successes and continuing past
failures; returns the success count and the concatenated call trace. -/
def cloneLoop (w : AwsWorld) (cfg : CloneConfig) : List String → Nat × List AwsCall
  | [] => (0, [])
  | role :: rest =>
    let outcome :=
      cloneSingleRole w role (GenerateNewRoleName role cfg.sourcePattern cfg.destPattern) cfg
    let restRes := cloneLoop w cfg rest
    ((if exceptIsOk outcome.result then 1 else 0) + restRes.1, outcome.calls ++ restRes.2)

/-- Result of `performCloning`: its returned error value, the final
`successCount`/total summary and the trace of AWS calls. -/
structure RunOutcome where
  result : Except String Unit
  successCount : Nat
  total : Nat
  trace : List AwsCall

/-- `performCloning` from cmd/clone.go (lines 353-395): construct the
source client, construct the destination client only outside dry-run,
then run the loop; after the clients are constructed it always returns
nil. -/
def performCloning (w : AwsWorld) (cfg : CloneConfig) : RunOutcome :=
  if w.newClientOk cfg.sourceProfile = false then
    ⟨.error "failed to create source client", 0, cfg.roles.length, []⟩
  else if cfg.dryRun = false ∧ w.newClientOk cfg.destProfile = false then
    ⟨.error "failed to create destination client", 0, cfg.roles.length, []⟩
  else
    let p := cloneLoop w cfg cfg.roles
    ⟨.ok (), p.1, cfg.roles.length, p.2⟩

/-- The tail of `runEnhancedClone` (cmd/clone.go lines 121-128): the
wizard logs the final "Role cloning completed successfully!" banner
exactly when `performCloning` returned nil (otherwise it exits). -/
def wizardLogsCompletion (w : AwsWorld) (cfg : CloneConfig) : Bool :=
  exceptIsOk (performCloning w cfg).result

-- Sample environment used to witness the workflow theorems.

/-- A concrete role snapshot for witnesses. -/
def sampleRoleInfo : RoleInfo :=
  ⟨"dev_app", "", "trust", ["arnP1"],
   [("dev_pol", "doc")], [("Environment", "dev"), ("Team", "dev_core")]⟩

/-- A service environment in which every call succeeds and no destination
role exists yet. -/
def sampleWorld : AwsWorld :=
  ⟨fun _ => true, fun _ => .ok sampleRoleInfo, fun _ => false,
   fun _ _ => .ok (), fun _ _ => .ok (), fun _ _ => .ok (), fun _ => .ok ()⟩

/-- A service environment in which the destination role already exists. -/
def sampleWorldExists : AwsWorld :=
  ⟨fun _ => true, fun _ => .ok sampleRoleInfo, fun _ => true,
   fun _ _ => .ok (), fun _ _ => .ok (), fun _ _ => .ok (), fun _ => .ok ()⟩

/-- A service environment in which every mutating sub-step fails. -/
def sampleWorldFailing : AwsWorld :=
  ⟨fun _ => true, fun _ => .ok sampleRoleInfo, fun _ => false,
   fun _ _ => .ok (), fun _ _ => .error "attach denied",
   fun _ _ => .error "put denied", fun _ => .error "tag denied"⟩

/-- A dry-run configuration for witnesses. -/
def sampleDryRunConfig : CloneConfig :=
  ⟨"dev", "prod", "dev_", "prod_", ["dev_app"], true, true, "log"⟩

/-- A real-run configuration for witnesses. -/
def sampleRealConfig : CloneConfig :=
  ⟨"dev", "prod", "dev_", "prod_", ["dev_app"], false, false, "log"⟩

-- C6: gateway error surfacing.

namespace AwsGateway

/-- `RoleExists` (internal/aws/client.go lines 78-83): calls GetRole and
returns whether the error was nil; the error value itself is dropped. -/
def RoleExists (svc : Except String Unit) : Bool :=
  exceptIsOk svc

/-- The GetRole step of `GetRoleInfo` (internal/aws/client.go lines
88-93), with the underlying service outcome passed in. -/
def GetRoleStep (roleName : String) (svc : Except String Unit) : Except String Unit :=
  match svc with
  | .error e => .error ("failed to get role " ++ roleName ++ ": " ++ e)
  | .ok _ => .ok ()

/-- The pagination wrapping of `ListRoles` (internal/aws/client.go lines
60-64). -/
def ListRolesStep (svc : Except String (List String)) : Except String (List String) :=
  match svc with
  | .error e => .error ("failed to list roles: " ++ e)
  | .ok roles => .ok roles

/-- `CreateRole` (internal/aws/client.go lines 138-154). -/
def CreateRole (roleName : String) (svc : Except String Unit) : Except String Unit :=
  match svc with
  | .error e => .error ("failed to create role " ++ roleName ++ ": " ++ e)
  | .ok _ => .ok ()

/-- `AttachManagedPolicy` (internal/aws/client.go lines 157-168). -/
def AttachManagedPolicy (roleName policyArn : String) (svc : Except String Unit) :
    Except String Unit :=
  match svc with
  | .error e =>
    .error ("failed to attach policy " ++ policyArn ++ " to role " ++ roleName ++ ": " ++ e)
  | .ok _ => .ok ()

/-- `CreateInlinePolicy` (internal/aws/client.go lines 171-183). -/
def CreateInlinePolicy (roleName policyName : String) (svc : Except String Unit) :
    Except String Unit :=
  match svc with
  | .error e =>
    .error ("failed to create inline policy " ++ policyName ++ " for role "
      ++ roleName ++ ": " ++ e)
  | .ok _ => .ok ()

/-- `TagRole` (internal/aws/client.go lines 186-209): an empty tag map
returns nil without calling the service at all. -/
def TagRole (roleName : String) (tags : List (String × String))
    (svc : Except String Unit) : Except String Unit :=
  if tags.isEmpty then .ok ()
  else
    match svc with
    | .error e => .error ("failed to tag role " ++ roleName ++ ": " ++ e)
    | .ok _ => .ok ()

end AwsGateway

-- C8: the version command's detailed flag.

namespace VersionCmd

/-- The boolean flags registered on the version command by its init
function (cmd/version.go lines 64-69): long name and shorthand. -/
def registeredFlags : List (String × String) := [("explain", "e")]

/-- Whether a long flag name is registered; the CLI parser rejects
unregistered long flags. -/
def flagIsRegistered (name : String) : Bool :=
  (registeredFlags.map Prod.fst).contains name

/-- cobra `Flags().GetBool name` with the error discarded, exactly as the
Run handler does: looking up an unregistered name yields false. -/
def getBoolFlag (setFlags : List String) (name : String) : Bool :=
  if flagIsRegistered name then setFlags.contains name else false

/-- The two output shapes of the version command. -/
inductive VersionOutput where
  | simple
  | detailed
deriving DecidableEq

/-- The Run handler of the version command (cmd/version.go lines 28-37):
it reads the boolean flag named "detailed" and branches to the detailed
or the one-line output. -/
def versionRun (setFlags : List String) : VersionOutput :=
  if getBoolFlag setFlags "detailed" then .detailed else .simple

end VersionCmd

-- Basic lemmas about occurrence and replacement.

theorem occursIn_empty_pat (s : List Char) : occursIn [] s = true := by
  cases s <;> simp [occursIn, List.isPrefixOf]

theorem isPrefixOf_append (p s t : List Char) (h : p.isPrefixOf s = true) :
    p.isPrefixOf (s ++ t) = true := by
  induction p generalizing s with
  | nil => simp [List.isPrefixOf]
  | cons a as ih =>
    cases s with
    | nil => simp [List.isPrefixOf] at h
    | cons b bs =>
      simp only [List.isPrefixOf, Bool.and_eq_true] at h ⊢
      exact ⟨h.1, ih bs h.2⟩

theorem occursIn_append_left (p s t : List Char) (h : occursIn p s = true) :
    occursIn p (s ++ t) = true := by
  induction s with
  | nil =>
    simp only [occursIn, List.isEmpty_iff] at h
    subst h
    exact occursIn_empty_pat t
  | cons c rest ih =>
    simp only [occursIn, Bool.or_eq_true] at h ⊢
    rcases h with h | h
    · exact Or.inl (isPrefixOf_append p (c :: rest) t h)
    · exact Or.inr (ih h)

theorem replaceFuel_no_occurrence (old new : List Char) :
    ∀ (fuel : Nat) (s : List Char), occursIn old s = false →
      replaceFuel fuel s old new = s := by
  intro fuel
  induction fuel with
  | zero => intro s _; cases s <;> rfl
  | succ n ih =>
    intro s h
    cases s with
    | nil => rfl
    | cons c rest =>
      simp only [occursIn, Bool.or_eq_false_iff] at h
      simp [replaceFuel, h.1, ih rest h.2]

/-- If the pattern does not occur in the string, `strings.ReplaceAll`
returns the string unchanged. -/
theorem goReplaceAll_no_occurrence (s old new : List Char)
    (h : occursIn old s = false) : goReplaceAll s old new = s := by
  have hold : old.isEmpty = false := by
    cases old with
    | nil => rw [occursIn_empty_pat] at h; exact absurd h (by simp)
    | cons a as => rfl
  simp only [goReplaceAll, hold, if_false]
  exact replaceFuel_no_occurrence old new s.length s h

theorem replacePattern_no_occurrence (s src dst : String)
    (h : goContains s src = false) : ReplacePatternInJSON s src dst = s := by
  unfold ReplacePatternInJSON
  rw [goReplaceAll_no_occurrence s.data src.data dst.data h]

theorem interleave_length (l new : List Char) :
    (l.foldr (fun c acc => c :: (new ++ acc)) []).length
      = l.length * (new.length + 1) := by
  induction l with
  | nil => simp
  | cons c rest ih =>
    simp only [List.foldr_cons, List.length_cons, List.length_append, ih]
    ring

theorem interleave_eq_join (l new : List Char) :
    l.foldr (fun c acc => c :: (new ++ acc)) []
      = (l.map (fun c => c :: new)).flatten := by
  induction l with
  | nil => rfl
  | cons c rest ih => simp [List.flatten, ih]

theorem goReplaceAll_empty_pat (s new : List Char) :
    goReplaceAll s [] new = new ++ (s.map (fun c => c :: new)).flatten := by
  simp [goReplaceAll, interleave_eq_join]

theorem goReplaceAll_empty_pat_length (s new : List Char) :
    (goReplaceAll s [] new).length
      = new.length + s.length * (new.length + 1) := by
  simp [goReplaceAll, interleave_length]

theorem string_ne_of_data_length_ne (a b : String)
    (h : a.data.length ≠ b.data.length) : a ≠ b := by
  intro hab
  exact h (by rw [hab])

/-- C5 counterexample: the claimed equivalence "the replace-then-reverse
round trip yields `s` back exactly when `dst` does not contain `src`" is
false in both directions.  With `s = "aaa"`, `src = "aa"`, `dst = "a"`
the round trip yields `"aaaa" ≠ "aaa"` although `"a"` does not contain
`"aa"`; with `s = "x"`, `src = "a"`, `dst = "aa"` the round trip yields
`"x"` back although `"aa"` does contain `"a"`. -/
theorem replaceAll_roundTrip_iff_refuted :
    ReplacePatternInJSON (ReplacePatternInJSON "aaa" "aa" "a") "a" "aa" ≠ "aaa"
    ∧ goContains "a" "aa" = false
    ∧ ReplacePatternInJSON (ReplacePatternInJSON "x" "a" "aa") "aa" "a" = "x"
    ∧ goContains "aa" "a" = true := by
  refine ⟨by decide, by decide, by decide, by decide⟩

/-- C5 (amended): containment of `src` in `dst` neither guarantees nor
precludes the round trip.  A sound sufficient condition on the code is:
when neither `src` nor `dst` occurs in `s`, `ReplacePatternInJSON` leaves
`s` unchanged and the reverse replacement restores it exactly. -/
theorem replaceAll_roundTrip_of_no_occurrence (s src dst : String)
    (hsrc : goContains s src = false) (hdst : goContains s dst = false) :
    ReplacePatternInJSON (ReplacePatternInJSON s src dst) dst src = s
    ∧ ReplacePatternInJSON s src dst = s := by
  have h1 : ReplacePatternInJSON s src dst = s :=
    replacePattern_no_occurrence s src dst hsrc
  rw [h1]
  exact ⟨replacePattern_no_occurrence s dst src hdst, rfl⟩

theorem replaceAll_roundTrip_witness :
    ReplacePatternInJSON (ReplacePatternInJSON "hello_role" "dev" "qa") "qa" "dev"
      = "hello_role"
    ∧ ReplacePatternInJSON "hello_role" "dev" "qa" = "hello_role" :=
  replaceAll_roundTrip_of_no_occurrence "hello_role" "dev" "qa"
    (by decide) (by decide)

/-- C10: with an empty source pattern, `strings.ReplaceAll` does not leave
the input unchanged: it inserts the destination pattern before every
character and at the end, so `GenerateNewRoleName`/`ReplacePatternInJSON`
with a non-empty destination pattern always change the input; `ListRoles`
with the empty filter keeps every role; and the pattern prompt accepts an
empty pattern (it only trims whitespace). -/
theorem emptySourcePattern_behaviour (s dst : String) (roles : List String)
    (hdst : dst ≠ "") :
    GenerateNewRoleName s "" dst ≠ s
    ∧ ReplacePatternInJSON s "" dst ≠ s
    ∧ (GenerateNewRoleName s "" dst).data
        = dst.data ++ (s.data.map (fun c => c :: dst.data)).flatten
    ∧ listRolesFilter "" roles = roles
    ∧ promptedPattern "" = "" := by
  have hdpos : 0 < dst.data.length := by
    rcases dst with ⟨l⟩
    cases l with
    | nil => exact absurd rfl hdst
    | cons a as => simp
  have hlen : (GenerateNewRoleName s "" dst).data.length
      = dst.data.length + s.data.length * (dst.data.length + 1) := by
    show (goReplaceAll s.data ("" : String).data dst.data).length = _
    rw [show ("" : String).data = [] from rfl, goReplaceAll_empty_pat_length]
  have hne : GenerateNewRoleName s "" dst ≠ s := by
    apply string_ne_of_data_length_ne
    rw [hlen, Nat.mul_succ]
    have hnn : 0 ≤ s.data.length * dst.data.length := Nat.zero_le _
    omega
  refine ⟨hne, hne, ?_, ?_, by decide⟩
  · show goReplaceAll s.data ("" : String).data dst.data = _
    rw [show ("" : String).data = [] from rfl, goReplaceAll_empty_pat]
  · simp [listRolesFilter]

theorem emptySourcePattern_witness :
    GenerateNewRoleName "my_role" "" "x" ≠ "my_role"
    ∧ ReplacePatternInJSON "my_role" "" "x" ≠ "my_role"
    ∧ (GenerateNewRoleName "my_role" "" "x").data
        = "x".data ++ ("my_role".data.map (fun c => c :: "x".data)).flatten
    ∧ listRolesFilter "" ["role_a", "role_b"] = ["role_a", "role_b"]
    ∧ promptedPattern "" = "" :=
  emptySourcePattern_behaviour "my_role" "x" ["role_a", "role_b"] (by decide)

theorem parseParts_rejects (allRoles : List String) :
    ∀ (parts : List String) (part : String), part ∈ parts →
      badToken allRoles part = true →
      exceptIsError (parseParts allRoles parts) = true := by
  intro parts
  induction parts with
  | nil => intro part h; simp at h
  | cons p rest ih =>
    intro part hmem hbad
    rcases List.mem_cons.mp hmem with rfl | hmem'
    · simp only [badToken, Bool.and_eq_true, bne_iff_ne] at hbad
      obtain ⟨hne, hbad2⟩ := hbad
      simp only [parseParts]
      rw [if_neg hne]
      cases hatoi : goAtoi (goTrimSpace part) with
      | none => simp [exceptIsError]
      | some idx =>
        rw [hatoi] at hbad2
        have hrange : idx < 1 ∨ idx > (allRoles.length : Int) := by
          simp only [Bool.or_eq_true, decide_eq_true_eq] at hbad2
          exact hbad2
        dsimp only
        simp only [if_pos hrange, exceptIsError]
    · simp only [parseParts]
      by_cases ht : goTrimSpace p = ""
      · rw [if_pos ht]; exact ih part hmem' hbad
      · rw [if_neg ht]
        cases hatoi : goAtoi (goTrimSpace p) with
        | none => rfl
        | some idx =>
          dsimp only
          by_cases hr : idx < 1 ∨ idx > (allRoles.length : Int)
          · rw [if_pos hr]; rfl
          · rw [if_neg hr]
            have hrec := ih part hmem' hbad
            cases h2 : parseParts allRoles rest with
            | error e => rfl
            | ok rs => rw [h2] at hrec; simp [exceptIsError] at hrec

/-- C4 counterexample: the blanket statement "any comma-separated token
that is non-numeric or outside `[1, length]` causes the whole selection
to be rejected" is false: the parser silently skips tokens that are empty
after trimming, so the non-numeric token `""` in `"1,,3"` does not cause
rejection — the selection succeeds. -/
theorem roleSelection_empty_token_refuted :
    parseRoleSelection "1,,3" ["r1", "r2", "r3", "r4", "r5"] = .ok ["r1", "r3"]
    ∧ goSplitComma "1,,3" = ["1", "", "3"]
    ∧ goAtoi "" = none := ⟨rfl, rfl, rfl⟩

/-- C4 (amended): against a 5-element discovered list, `"1,3,5"` selects
exactly the 1st, 3rd and 5th roles in order; `"0"` and `"6"` are rejected
as out of range; any trimmed input that lowercases to `"all"` selects
every discovered role; and any token that is nonempty after trimming and
non-numeric or outside `[1, length]` makes the whole selection fail
(tokens that are empty after trimming are skipped, not rejected). -/
theorem roleSelection_spec (a b c d e : String) (roles : List String)
    (s sel part : String)
    (hall : goToLower (goTrimSpace s) = "all")
    (hmem : part ∈ goSplitComma sel)
    (hbad : badToken roles part = true) :
    parseRoleSelection "1,3,5" [a, b, c, d, e] = .ok [a, c, e]
    ∧ parseRoleSelection "0" [a, b, c, d, e] = .error "number out of range: 0"
    ∧ parseRoleSelection "6" [a, b, c, d, e] = .error "number out of range: 6"
    ∧ selectRoles s roles = .ok roles
    ∧ exceptIsError (parseRoleSelection sel roles) = true := by
  refine ⟨rfl, rfl, rfl, ?_, ?_⟩
  · simp [selectRoles, hall]
  · exact parseParts_rejects roles (goSplitComma sel) part hmem hbad

theorem roleSelection_spec_witness :
    parseRoleSelection "1,3,5" ["r1", "r2", "r3", "r4", "r5"]
      = .ok ["r1", "r3", "r5"]
    ∧ parseRoleSelection "0" ["r1", "r2", "r3", "r4", "r5"]
      = .error "number out of range: 0"
    ∧ parseRoleSelection "6" ["r1", "r2", "r3", "r4", "r5"]
      = .error "number out of range: 6"
    ∧ selectRoles "ALL" ["x", "y"] = .ok ["x", "y"]
    ∧ exceptIsError (parseRoleSelection "7" ["x", "y"]) = true :=
  roleSelection_spec "r1" "r2" "r3" "r4" "r5" ["x", "y"] "ALL" "7" "7"
    (by decide) (by decide) (by decide)

-- C1: the Environment tag value.

/-- C1 counterexample: the Environment value is not "the destination
pattern with any trailing `_`, `-`, `.` stripped": the code strips at
most one `_`, then one `-`, then one `.`, in that fixed order, so for the
destination pattern `"prod__"` the stored value is `"prod_"`, which still
ends in `'_'`. -/
theorem envTag_trailing_separator_refuted :
    environmentTagValue "prod__" = "prod_"
    ∧ (environmentTagValue "prod__").data.getLast? = some '_' := by
  exact ⟨by decide, by decide⟩

/-- C1 (amended): in both the dry-run preview and the real tag-copy path,
the value stored under the key `Environment` is
`TrimSuffix(TrimSuffix(TrimSuffix(destPattern, "_"), "-"), ".")` — the
destination pattern with at most one trailing `_`, then at most one
trailing `-`, then at most one trailing `.` removed, never generic
substring substitution; the result may still end in a separator. -/
theorem envTag_trimSuffix_chain (tags : List (String × String))
    (src dst k v : String) (hmem : (k, v) ∈ tags) (hk : k = "Environment") :
    (k, environmentTagValue dst) ∈ processTags tags src dst
    ∧ (k, environmentTagValue dst) ∈ dryRunTagPreview tags src dst
    ∧ environmentTagValue dst
        = trimSuffix (trimSuffix (trimSuffix dst "_") "-") "." := by
  subst hk
  refine ⟨?_, ?_, rfl⟩
  · have h := List.mem_map_of_mem (fun kv : String × String =>
      if kv.1 = "Environment" then (kv.1, environmentTagValue dst)
      else (kv.1, ReplacePatternInJSON kv.2 src dst)) hmem
    simpa [processTags] using h
  · have h := List.mem_map_of_mem (fun kv : String × String =>
      if kv.1 = "Environment" then (kv.1, environmentTagValue dst)
      else (kv.1, ReplacePatternInJSON kv.2 src dst)) hmem
    simpa [dryRunTagPreview] using h

theorem envTag_trimSuffix_chain_witness :
    ("Environment", environmentTagValue "prod_") ∈
      processTags [("Environment", "dev"), ("Team", "dev_core")] "dev_" "prod_"
    ∧ ("Environment", environmentTagValue "prod_") ∈
      dryRunTagPreview [("Environment", "dev"), ("Team", "dev_core")] "dev_" "prod_"
    ∧ environmentTagValue "prod_"
        = trimSuffix (trimSuffix (trimSuffix "prod_" "_") "-") "." :=
  envTag_trimSuffix_chain [("Environment", "dev"), ("Team", "dev_core")]
    "dev_" "prod_" "Environment" "dev" (by decide) rfl

-- C2: dry-run issues no mutating calls.

theorem cloneSingleRole_dryRun_calls (w : AwsWorld) (s d : String)
    (cfg : CloneConfig) (h : cfg.dryRun = true) :
    (cloneSingleRole w s d cfg).calls = [AwsCall.getRoleInfo s] := by
  unfold cloneSingleRole
  cases w.getRoleInfo s with
  | error e => rfl
  | ok info => simp [h]

theorem cloneLoop_calls_dryRun (w : AwsWorld) (cfg : CloneConfig)
    (h : cfg.dryRun = true) :
    ∀ roles : List String,
      (cloneLoop w cfg roles).2 = roles.map AwsCall.getRoleInfo := by
  intro roles
  induction roles with
  | nil => rfl
  | cons r rest ih =>
    simp [cloneLoop, cloneSingleRole_dryRun_calls w r _ cfg h, ih]

/-- C2: when the dry-run flag is set, the whole execution issues no
mutating AWS call — no CreateRole, AttachRolePolicy, PutRolePolicy or
TagRole appears in the trace — whatever the verbose flag and the service
environment. -/
theorem dryRun_no_mutating_calls (w : AwsWorld) (cfg : CloneConfig)
    (h : cfg.dryRun = true) :
    ((performCloning w cfg).trace.all fun c => !c.isMutating) = true := by
  unfold performCloning
  split
  · rfl
  · split
    · rfl
    · show ((cloneLoop w cfg cfg.roles).2.all fun c => !c.isMutating) = true
      rw [cloneLoop_calls_dryRun w cfg h cfg.roles]
      apply List.all_eq_true.mpr
      intro x hx
      rcases List.mem_map.mp hx with ⟨r, _, rfl⟩
      rfl

theorem dryRun_no_mutating_calls_witness :
    ((performCloning sampleWorld sampleDryRunConfig).trace.all
      fun c => !c.isMutating) = true :=
  dryRun_no_mutating_calls sampleWorld sampleDryRunConfig rfl

-- C3: an existing destination role fails that role only.

theorem cloneSingleRole_calls_head (w : AwsWorld) (s d : String)
    (cfg : CloneConfig) :
    AwsCall.getRoleInfo s ∈ (cloneSingleRole w s d cfg).calls := by
  unfold cloneSingleRole
  cases w.getRoleInfo s with
  | error e => simp
  | ok info =>
    by_cases h1 : cfg.dryRun = true
    · simp [h1]
    · by_cases h2 : w.roleExists d = true
      · simp [h1, h2]
      · cases h3 : w.createRole d
            (ReplacePatternInJSON info.trustPolicy cfg.sourcePattern cfg.destPattern) with
        | error e => simp [h1, h2, h3]
        | ok u => simp [h1, h2, h3]

theorem cloneLoop_processes_all (w : AwsWorld) (cfg : CloneConfig) :
    ∀ (roles : List String) (r : String), r ∈ roles →
      AwsCall.getRoleInfo r ∈ (cloneLoop w cfg roles).2 := by
  intro roles
  induction roles with
  | nil => intro r h; simp at h
  | cons x rest ih =>
    intro r hmem
    rcases List.mem_cons.mp hmem with rfl | h'
    · simp only [cloneLoop, List.mem_append]
      exact Or.inl (cloneSingleRole_calls_head w r _ cfg)
    · simp only [cloneLoop, List.mem_append]
      exact Or.inr (ih r h')

/-- C3: outside dry-run, when the destination role name already exists,
`cloneSingleRole` fails that single role with an error message containing
"already exists", issues no CreateRole call for it, and `performCloning`
still processes every selected role. -/
theorem destExists_per_role (w : AwsWorld) (cfg : CloneConfig)
    (sourceRole destRole : String) (info : RoleInfo)
    (hdry : cfg.dryRun = false)
    (hinfo : w.getRoleInfo sourceRole = .ok info)
    (hex : w.roleExists destRole = true)
    (hsrc : w.newClientOk cfg.sourceProfile = true)
    (hdst : w.newClientOk cfg.destProfile = true) :
    (cloneSingleRole w sourceRole destRole cfg).result
      = .error ("destination role already exists: " ++ destRole)
    ∧ goContains ("destination role already exists: " ++ destRole) "already exists" = true
    ∧ ((cloneSingleRole w sourceRole destRole cfg).calls.contains
        (AwsCall.createRole destRole)) = false
    ∧ (cfg.roles.all fun r =>
        (performCloning w cfg).trace.contains (AwsCall.getRoleInfo r)) = true := by
  have hred : cloneSingleRole w sourceRole destRole cfg =
      ⟨.error ("destination role already exists: " ++ destRole),
       [.getRoleInfo sourceRole, .roleExists destRole], []⟩ := by
    unfold cloneSingleRole
    rw [hinfo]
    simp [hdry, hex]
  refine ⟨by rw [hred], ?_, ?_, ?_⟩
  · show occursIn "already exists".data
      ("destination role already exists: ".data ++ destRole.data) = true
    exact occursIn_append_left _ _ _ (by decide)
  · rw [hred]
    simp
  · apply List.all_eq_true.mpr
    intro r hr
    apply List.elem_eq_true_of_mem
    unfold performCloning
    simp only [hsrc, hdst, Bool.true_eq_false, false_and, and_false, if_false]
    exact cloneLoop_processes_all w cfg cfg.roles r hr

theorem destExists_per_role_witness :
    (cloneSingleRole sampleWorldExists "dev_app" "prod_app" sampleRealConfig).result
      = .error ("destination role already exists: " ++ "prod_app")
    ∧ goContains ("destination role already exists: " ++ "prod_app") "already exists" = true
    ∧ ((cloneSingleRole sampleWorldExists "dev_app" "prod_app" sampleRealConfig).calls.contains
        (AwsCall.createRole "prod_app")) = false
    ∧ (sampleRealConfig.roles.all fun r =>
        (performCloning sampleWorldExists sampleRealConfig).trace.contains
          (AwsCall.getRoleInfo r)) = true :=
  destExists_per_role sampleWorldExists sampleRealConfig "dev_app" "prod_app"
    sampleRoleInfo rfl rfl rfl rfl rfl

-- C7: sub-step failures after CreateRole are non-fatal.

theorem cloneSingleRole_success_calls (w : AwsWorld) (cfg : CloneConfig)
    (sourceRole destRole : String) (info : RoleInfo)
    (hdry : cfg.dryRun = false)
    (hinfo : w.getRoleInfo sourceRole = .ok info)
    (hex : w.roleExists destRole = false)
    (hcreate : w.createRole destRole
        (ReplacePatternInJSON info.trustPolicy cfg.sourcePattern cfg.destPattern)
      = .ok ()) :
    (cloneSingleRole w sourceRole destRole cfg).result = .ok ()
    ∧ (cloneSingleRole w sourceRole destRole cfg).calls =
      [.getRoleInfo sourceRole, .roleExists destRole, .createRole destRole]
        ++ info.managedPolicies.map (fun arn => AwsCall.attachPolicy destRole arn)
        ++ info.inlinePolicies.map (fun p => AwsCall.putRolePolicy destRole
            (GenerateNewRoleName p.1 cfg.sourcePattern cfg.destPattern))
        ++ (if info.tags.isEmpty then []
            else [AwsCall.tagRole destRole
              (processTags info.tags cfg.sourcePattern cfg.destPattern)]) := by
  unfold cloneSingleRole
  rw [hinfo]
  simp [hdry, hex, hcreate]

/-- C7: outside dry-run, once CreateRole has succeeded, failures of
individual managed-policy attachments, inline-policy creations or the tag
copy never fail the role: the per-role result is still success whatever
the sub-step outcomes in the environment are, every sub-step call is
still issued, and the loop counts the role as a success and continues
with the remaining roles. -/
theorem substep_failures_nonfatal (w : AwsWorld) (cfg : CloneConfig)
    (sourceRole destRole : String) (info : RoleInfo) (rest : List String)
    (hdry : cfg.dryRun = false)
    (hinfo : w.getRoleInfo sourceRole = .ok info)
    (hex : w.roleExists destRole = false)
    (hcreate : w.createRole destRole
        (ReplacePatternInJSON info.trustPolicy cfg.sourcePattern cfg.destPattern)
      = .ok ())
    (hd : destRole = GenerateNewRoleName sourceRole cfg.sourcePattern cfg.destPattern) :
    (cloneSingleRole w sourceRole destRole cfg).result = .ok ()
    ∧ (info.managedPolicies.all fun arn =>
        (cloneSingleRole w sourceRole destRole cfg).calls.contains
          (AwsCall.attachPolicy destRole arn)) = true
    ∧ (info.inlinePolicies.all fun p =>
        (cloneSingleRole w sourceRole destRole cfg).calls.contains
          (AwsCall.putRolePolicy destRole
            (GenerateNewRoleName p.1 cfg.sourcePattern cfg.destPattern))) = true
    ∧ (info.tags.isEmpty || (cloneSingleRole w sourceRole destRole cfg).calls.contains
        (AwsCall.tagRole destRole
          (processTags info.tags cfg.sourcePattern cfg.destPattern))) = true
    ∧ (cloneLoop w cfg (sourceRole :: rest)).1 = (cloneLoop w cfg rest).1 + 1
    ∧ (cloneLoop w cfg (sourceRole :: rest)).2
        = (cloneSingleRole w sourceRole destRole cfg).calls
            ++ (cloneLoop w cfg rest).2 := by
  obtain ⟨hres, hcalls⟩ :=
    cloneSingleRole_success_calls w cfg sourceRole destRole info hdry hinfo hex hcreate
  refine ⟨hres, ?_, ?_, ?_, ?_, ?_⟩
  · apply List.all_eq_true.mpr
    intro arn hmem
    apply List.elem_eq_true_of_mem
    rw [hcalls]
    exact List.mem_append.mpr (Or.inl (List.mem_append.mpr (Or.inl
      (List.mem_append.mpr (Or.inr (List.mem_map_of_mem _ hmem))))))
  · apply List.all_eq_true.mpr
    intro p hmem
    apply List.elem_eq_true_of_mem
    rw [hcalls]
    exact List.mem_append.mpr (Or.inl (List.mem_append.mpr (Or.inr
      (List.mem_map_of_mem _ hmem))))
  · by_cases he : info.tags.isEmpty = true
    · simp [he]
    · have he' : info.tags.isEmpty = false := by
        cases h : info.tags.isEmpty
        · rfl
        · exact absurd h he
      rw [he']
      simp only [Bool.false_or]
      apply List.elem_eq_true_of_mem
      rw [hcalls]
      refine List.mem_append.mpr (Or.inr ?_)
      rw [he']
      simp
  · simp only [cloneLoop, ← hd, hres]
    simp [exceptIsOk, Nat.add_comm]
  · simp only [cloneLoop, ← hd]

theorem substep_failures_nonfatal_witness :
    (cloneSingleRole sampleWorldFailing "dev_app" "prod_app" sampleRealConfig).result
      = .ok ()
    ∧ (sampleRoleInfo.managedPolicies.all fun arn =>
        (cloneSingleRole sampleWorldFailing "dev_app" "prod_app" sampleRealConfig).calls.contains
          (AwsCall.attachPolicy "prod_app" arn)) = true
    ∧ (sampleRoleInfo.inlinePolicies.all fun p =>
        (cloneSingleRole sampleWorldFailing "dev_app" "prod_app" sampleRealConfig).calls.contains
          (AwsCall.putRolePolicy "prod_app"
            (GenerateNewRoleName p.1 sampleRealConfig.sourcePattern
              sampleRealConfig.destPattern))) = true
    ∧ (sampleRoleInfo.tags.isEmpty
        || (cloneSingleRole sampleWorldFailing "dev_app" "prod_app" sampleRealConfig).calls.contains
          (AwsCall.tagRole "prod_app"
            (processTags sampleRoleInfo.tags sampleRealConfig.sourcePattern
              sampleRealConfig.destPattern))) = true
    ∧ (cloneLoop sampleWorldFailing sampleRealConfig ["dev_app"]).1
        = (cloneLoop sampleWorldFailing sampleRealConfig []).1 + 1
    ∧ (cloneLoop sampleWorldFailing sampleRealConfig ["dev_app"]).2
        = (cloneSingleRole sampleWorldFailing "dev_app" "prod_app" sampleRealConfig).calls
            ++ (cloneLoop sampleWorldFailing sampleRealConfig []).2 :=
  substep_failures_nonfatal sampleWorldFailing sampleRealConfig "dev_app" "prod_app"
    sampleRoleInfo [] rfl rfl rfl rfl (by decide)

-- C9: performCloning never fails after client construction.

theorem cloneLoop_success_count (w : AwsWorld) (cfg : CloneConfig) :
    ∀ roles : List String, (cloneLoop w cfg roles).1
      = roles.countP (fun r => exceptIsOk (cloneSingleRole w r
          (GenerateNewRoleName r cfg.sourcePattern cfg.destPattern) cfg).result) := by
  intro roles
  induction roles with
  | nil => rfl
  | cons r rest ih =>
    simp only [cloneLoop, ih, List.countP_cons]
    cases h : exceptIsOk (cloneSingleRole w r
        (GenerateNewRoleName r cfg.sourcePattern cfg.destPattern) cfg).result <;>
      simp [h, Nat.add_comm]

/-- C9: once the source client is constructed (and, outside dry-run, the
destination client too), `performCloning` returns nil for every possible
combination of per-role outcomes, so the wizard always logs the final
completion banner; per-role failures only lower the success count in the
summary, which counts exactly the roles whose clone succeeded. -/
theorem performCloning_always_ok (w : AwsWorld) (cfg : CloneConfig)
    (hsrc : w.newClientOk cfg.sourceProfile = true)
    (hdst : cfg.dryRun = true ∨ w.newClientOk cfg.destProfile = true) :
    (performCloning w cfg).result = .ok ()
    ∧ wizardLogsCompletion w cfg = true
    ∧ (performCloning w cfg).successCount
        = cfg.roles.countP (fun r => exceptIsOk (cloneSingleRole w r
            (GenerateNewRoleName r cfg.sourcePattern cfg.destPattern) cfg).result)
    ∧ (performCloning w cfg).total = cfg.roles.length := by
  have hcond : ¬ (cfg.dryRun = false ∧ w.newClientOk cfg.destProfile = false) := by
    rcases hdst with h | h <;> simp [h]
  have hred : performCloning w cfg =
      ⟨.ok (), (cloneLoop w cfg cfg.roles).1, cfg.roles.length,
       (cloneLoop w cfg cfg.roles).2⟩ := by
    unfold performCloning
    simp [hsrc, hcond]
  refine ⟨by rw [hred], ?_, ?_, by rw [hred]⟩
  · unfold wizardLogsCompletion
    rw [hred]
    rfl
  · rw [hred]
    exact cloneLoop_success_count w cfg cfg.roles

theorem performCloning_always_ok_witness :
    (performCloning sampleWorldExists sampleRealConfig).result = .ok ()
    ∧ wizardLogsCompletion sampleWorldExists sampleRealConfig = true
    ∧ (performCloning sampleWorldExists sampleRealConfig).successCount
        = sampleRealConfig.roles.countP (fun r =>
            exceptIsOk (cloneSingleRole sampleWorldExists r
              (GenerateNewRoleName r sampleRealConfig.sourcePattern
                sampleRealConfig.destPattern) sampleRealConfig).result)
    ∧ (performCloning sampleWorldExists sampleRealConfig).total
        = sampleRealConfig.roles.length :=
  performCloning_always_ok sampleWorldExists sampleRealConfig rfl (Or.inr rfl)

/-- C6 counterexample: the existence check does not surface service
failures as errors.  `RoleExists` maps any GetRole failure — here an
access denial, which is not a statement about the role's existence — to
the plain non-error result `false`, indistinguishable from "the role does
not exist"; the error is swallowed. -/
theorem roleExists_swallows_error :
    AwsGateway.RoleExists (Except.error "AccessDenied") = false := rfl

/-- C6 (amended): every gateway operation except the existence check
surfaces an underlying service failure as an error carrying the failing
operation and the role/policy identifier, and maps no error to a
non-error result; `RoleExists`, however, returns a bare boolean and maps
any GetRole failure to `false`. -/
theorem gateway_error_surfacing (roleName policyArn policyName e : String)
    (tags : List (String × String)) (htags : tags.isEmpty = false) :
    AwsGateway.GetRoleStep roleName (.error e)
      = .error ("failed to get role " ++ roleName ++ ": " ++ e)
    ∧ AwsGateway.ListRolesStep (Except.error e : Except String (List String))
      = .error ("failed to list roles: " ++ e)
    ∧ AwsGateway.CreateRole roleName (.error e)
      = .error ("failed to create role " ++ roleName ++ ": " ++ e)
    ∧ AwsGateway.AttachManagedPolicy roleName policyArn (.error e)
      = .error ("failed to attach policy " ++ policyArn ++ " to role "
          ++ roleName ++ ": " ++ e)
    ∧ AwsGateway.CreateInlinePolicy roleName policyName (.error e)
      = .error ("failed to create inline policy " ++ policyName ++ " for role "
          ++ roleName ++ ": " ++ e)
    ∧ AwsGateway.TagRole roleName tags (.error e)
      = .error ("failed to tag role " ++ roleName ++ ": " ++ e)
    ∧ AwsGateway.RoleExists (.error e) = false := by
  refine ⟨rfl, rfl, rfl, rfl, rfl, ?_, rfl⟩
  simp [AwsGateway.TagRole, htags]

theorem gateway_error_surfacing_witness :
    AwsGateway.GetRoleStep "dev_app" (.error "boom")
      = .error ("failed to get role " ++ "dev_app" ++ ": " ++ "boom")
    ∧ AwsGateway.ListRolesStep (Except.error "boom" : Except String (List String))
      = .error ("failed to list roles: " ++ "boom")
    ∧ AwsGateway.CreateRole "dev_app" (.error "boom")
      = .error ("failed to create role " ++ "dev_app" ++ ": " ++ "boom")
    ∧ AwsGateway.AttachManagedPolicy "dev_app" "arnP1" (.error "boom")
      = .error ("failed to attach policy " ++ "arnP1" ++ " to role "
          ++ "dev_app" ++ ": " ++ "boom")
    ∧ AwsGateway.CreateInlinePolicy "dev_app" "pol" (.error "boom")
      = .error ("failed to create inline policy " ++ "pol" ++ " for role "
          ++ "dev_app" ++ ": " ++ "boom")
    ∧ AwsGateway.TagRole "dev_app" [("k", "v")] (.error "boom")
      = .error ("failed to tag role " ++ "dev_app" ++ ": " ++ "boom")
    ∧ AwsGateway.RoleExists (.error "boom") = false :=
  gateway_error_surfacing "dev_app" "arnP1" "pol" "boom" [("k", "v")] rfl

/-- C8 (code bug): the Run handler reads a flag named "detailed", but the
init function registers the flag under the long name "explain" with
shorthand "e"; "--detailed" is therefore not a registered flag, and even
when the registered flag is set (via "-e" or "--explain") the handler's
lookup yields false, so the one-line version is printed and the detailed
output is unreachable. -/
theorem version_detailed_flag_broken :
    VersionCmd.flagIsRegistered "detailed" = false
    ∧ VersionCmd.flagIsRegistered "explain" = true
    ∧ VersionCmd.versionRun ["explain"] = VersionCmd.VersionOutput.simple
    ∧ VersionCmd.versionRun [] = VersionCmd.VersionOutput.simple := by
  exact ⟨by decide, by decide, by decide, by decide⟩
